import Mathlib

/-!
Shallow embedding of the error-handling core of `libbase`
(`include/android-base/result.h`) and of `Trim`
(`include/android-base/strings.h`), with theorems checking the
natural-language specification against the code.

Conventions of the embedding:
* the `std::stringstream ss_` buffer of `Error` is modelled as the
  `String` it currently holds;
* the generic error-code parameter `E` is a Lean type parameter; the
  operations the C++ code requires of `E` (`print()`, a default value)
  are passed explicitly where the corresponding member is used;
* the ambient `errno` global is threaded explicitly as an `Int` where a
  function reads or writes it; stringification of an appended operand is
  modelled as a function `Int → String × Int` (it sees the current
  `errno` and may change it while producing its text);
* the platform's `strerror` is external to the repository and is kept
  abstract: `Errno.print` takes it as an explicit argument.
-/

namespace LibBase

/-- Wrapper for `errno(3)` (`result.h`, `struct Errno`): holds the raw
`int` value. -/
structure Errno where
  val_ : Int
deriving DecidableEq, Repr

/-- `Errno() : val_(0)`. -/
def Errno.default : Errno := ⟨0⟩

/-- `int value() const { return val_; }` -/
def Errno.value (e : Errno) : Int := e.val_

/-- `operator int() const { return value(); }` -/
def Errno.toInt (e : Errno) : Int := e.value

/-- `std::string print() const { return strerror(value()); }` —
`strerror` is the platform's error-description table, external to the
repository, so it is passed in as a function. -/
def Errno.print (strerror : Int → String) (e : Errno) : String :=
  strerror e.value

/-- `ResultError<E>` (`result.h`): pairs a message string with a typed
error code. -/
structure ResultError (E : Type) where
  message_ : String
  code_ : E
deriving DecidableEq, Repr

/-- `std::string message() const { return message_; }` -/
def ResultError.message {E : Type} (r : ResultError E) : String := r.message_

/-- `const E& code() const { return code_; }` -/
def ResultError.code {E : Type} (r : ResultError E) : E := r.code_

/-- `operator==(const ResultError<E>&, const ResultError<E>&)`:
equal iff both message and code are equal. -/
def ResultError.beq {E : Type} [DecidableEq E]
    (lhs rhs : ResultError E) : Bool :=
  lhs.message == rhs.message && decide (lhs.code = rhs.code)

/-- The `Error<E>` builder (`result.h`): accumulated message buffer
`ss_`, code `code_`, and the `const bool has_code_` flag fixed at
construction. -/
structure Error (E : Type) where
  ss_ : String
  code_ : E
  has_code_ : Bool
deriving DecidableEq, Repr

/-- `Error() : code_(0), has_code_(false)` — the default constructor;
`code_(0)` constructs `E` from `0`, i.e. `E`'s default/zero value,
passed here explicitly. -/
def Error.empty {E : Type} (dflt : E) : Error E := ⟨"", dflt, false⟩

/-- `Error(P&& code) : code_(std::forward<P>(code)), has_code_(true)` -/
def Error.withCode {E : Type} (code : E) : Error E := ⟨"", code, true⟩

/-- The generic branch of `Error::operator<<` with the `errno`
save/restore made explicit: `int saved = errno; ss_ << t; errno = saved;`.
`render` models the stringification `ss_ << t`: given the current
`errno` it yields the rendered text and the `errno` value it leaves
behind. Returns the updated builder and the final `errno`. -/
def Error.appendT {E : Type} (b : Error E) (render : Int → String × Int)
    (errno : Int) : Error E × Int :=
  let saved : Int := errno
  let p := render errno
  ({ b with ss_ := b.ss_ ++ p.1 }, saved)

/-- Pure view of the generic branch of `operator<<` for an operand whose
stringification is the string `s` (and does not touch `errno`). -/
def Error.appendStr {E : Type} (b : Error E) (s : String) : Error E :=
  { b with ss_ := b.ss_ ++ s }

/-- The `ResultError<E>` branch of `Error::operator<<`:
`if (!has_code_) { code_ = t.code(); } return (*this) << t.message();`.
Note `has_code_` is `const` and is NOT set to true here. -/
def Error.appendRE {E : Type} (b : Error E) (r : ResultError E) : Error E :=
  let b' := if b.has_code_ then b else { b with code_ := r.code }
  b'.appendStr r.message

/-- `Error::str()` (`result.h` lines 192–201). `print` is `E::print`. -/
def Error.str {E : Type} (print : E → String) (b : Error E) : String :=
  let s := b.ss_
  if b.has_code_ then
    if s.isEmpty then print b.code_
    else s ++ ": " ++ print b.code_
  else s

/-- `Result<T, E> = expected<T, ResultError<E>>`: holds a value XOR a
`ResultError<E>`. -/
inductive Result (T E : Type) where
  | ok (v : T)
  | err (e : ResultError E)
deriving DecidableEq, Repr

/-- `expected::ok()`. -/
def Result.isOk {T E : Type} : Result T E → Bool
  | .ok _ => true
  | .err _ => false

/-- `expected::error()`, defined when the result is a failure. -/
def Result.errorOf {T E : Type} : Result T E → Option (ResultError E)
  | .ok _ => none
  | .err e => some e

/-- `Error::operator expected<T, ResultError<P>>()` (lines 171–175):
`unexpected(ResultError<P>(str(), static_cast<P>(code_)))`, specialised
to `P = E`. -/
def Error.toResult {E : Type} (T : Type) (print : E → String)
    (b : Error E) : Result T E :=
  Result.err ⟨b.str print, b.code_⟩

/-- `ResultError::operator expected<T, ResultError<E>>()` (lines
133–137): `unexpected(ResultError<E>(message_, code_))`. -/
def ResultError.toResult {E : Type} (T : Type) (r : ResultError E) :
    Result T E :=
  Result.err ⟨r.message_, r.code_⟩

/-- `ErrnoError()` : `Error<Errno>(Errno{errno})`; the current `errno`
is the argument. -/
def ErrnoError (errno : Int) : Error Errno :=
  Error.withCode ⟨errno⟩

/-- A variadic argument of the formatted-error factories, as seen by
`ErrorCode`: either a `ResultError<E>` or an argument of any other
type (whose value `ErrorCode` never inspects). -/
inductive Arg (E : Type) where
  | re (r : ResultError E)
  | other
deriving DecidableEq, Repr

/-- `ErrorCode(E code)` / `ErrorCode(E code, T&& t, const Args&... args)`
(lines 228–241): if the head argument is a `ResultError<E>`, recurse
with its code as the new default, else keep `code`. -/
def ErrorCode {E : Type} (code : E) : List (Arg E) → E
  | [] => code
  | .re r :: args => ErrorCode r.code args
  | .other :: args => ErrorCode code args

/-- The private `Error(bool has_code, E code, const std::string& message)`
constructor (lines 215–217): sets the fields, then `(*this) << message`. -/
def Error.mkPrivate {E : Type} (has_code : Bool) (code : E)
    (message : String) : Error E :=
  Error.appendStr ⟨"", code, has_code⟩ message

/-- `ErrorfImpl(fmt, args...)` (lines 243–246):
`Error(false, ErrorCode(Errno{}, args...), fmt::format(fmt, args...))`.
The `fmt::format` rendering is external; `formatted` is its result. -/
def ErrorfImpl (args : List (Arg Errno)) (formatted : String) : Error Errno :=
  Error.mkPrivate false (ErrorCode Errno.default args) formatted

/-- `ErrnoErrorfImpl(fmt, args...)` (lines 248–251):
`Error<Errno>(true, Errno{errno}, fmt::format(fmt, args...))`. -/
def ErrnoErrorfImpl (errno : Int) (formatted : String) : Error Errno :=
  Error.mkPrivate true ⟨errno⟩ formatted

/-- `OkOrFail<Result<T, E>>` (lines 261–288): wraps a consumed `Result`. -/
structure OkOrFail (T E : Type) where
  val_ : Result T E

/-- `static bool IsOk(const V& val) { return val.ok(); }` -/
def OkOrFail.IsOk {T E : Type} (val : Result T E) : Bool := val.isOk

/-- `static OkOrFail<V> Fail(V&& v) { assert(!IsOk(v)); return {std::move(v)}; }` -/
def OkOrFail.Fail {T E : Type} (v : Result T E) : OkOrFail T E := ⟨v⟩

/-- `operator S() && { return val_.error().code(); }` for `S`
convertible from `E`; `conv` is that conversion. Defined when `val_`
is a failure (the `error()` precondition). -/
def OkOrFail.asCode {T E S : Type} (conv : E → S) (o : OkOrFail T E) :
    Option S :=
  match o.val_ with
  | .err r => some (conv r.code)
  | .ok _ => none

/-- `operator Result<U, E>() && { return val_.error(); }` — goes through
`ResultError`'s conversion to `expected`, wrapping a copy of the error.
Defined when `val_` is a failure. -/
def OkOrFail.asResult {T E : Type} (U : Type) (o : OkOrFail T E) :
    Option (Result U E) :=
  match o.val_ with
  | .err r => some (r.toResult U)
  | .ok _ => none

/-- `static std::string ErrorMessage(const V& val)`. -/
def OkOrFail.ErrorMessage {T E : Type} (val : Result T E) : Option String :=
  (val.errorOf).map ResultError.message

/-- `isspace(3)` in the default C locale: space, `\t`, `\n`, `\v`,
`\f`, `\r`. -/
def isspace (c : Char) : Bool :=
  c = ' ' || c = '\t' || c = '\n' || c = '\x0b' || c = '\x0c' || c = '\r'

/-- The first loop of `Trim` (`strings.h` lines 78–80):
`while (!sv.empty() && isspace(sv.front())) sv.remove_prefix(1);` -/
def dropLeading : List Char → List Char
  | [] => []
  | c :: cs => if isspace c then dropLeading cs else c :: cs

/-- The second loop of `Trim` (`strings.h` lines 83–85):
`while (!sv.empty() && isspace(sv.back())) sv.remove_suffix(1);` —
recursing on the list, a whitespace tail is removed when everything
after it was removed too. -/
def dropTrailing : List Char → List Char
  | [] => []
  | c :: cs =>
    match dropTrailing cs with
    | [] => if isspace c then [] else [c]
    | cs' => c :: cs'

/-- `Trim` (`strings.h` lines 60–88) on the character sequence of the
argument: skip initial whitespace, then skip terminating whitespace. -/
def trimChars (s : List Char) : List Char :=
  dropTrailing (dropLeading s)

/-- `Trim` at the `std::string` level. -/
def Trim (s : String) : String :=
  ⟨trimChars s.data⟩

/-- One step of builder augmentation, for stating invariants over
arbitrary sequences of `operator<<` calls: appending a stringified
operand or a `ResultError<E>`. -/
inductive AppendOp (E : Type) where
  | str (s : String)
  | re (r : ResultError E)

/-- Apply one append operation to a builder. -/
def Error.applyOp {E : Type} (b : Error E) : AppendOp E → Error E
  | .str s => b.appendStr s
  | .re r => b.appendRE r

/-- Whether a variadic argument is of type `ResultError<E>` — the test
`std::is_same_v<remove_cv_t<remove_reference_t<T>>, ResultError<E>>`. -/
def Arg.isRE {E : Type} : Arg E → Bool
  | .re _ => true
  | .other => false

/-! ## Helper lemmas -/

theorem applyOp_has_code {E : Type} (b : Error E) (op : AppendOp E) :
    (b.applyOp op).has_code_ = b.has_code_ := by
  cases op with
  | str s => rfl
  | re r =>
    simp only [Error.applyOp, Error.appendRE]
    split <;> rfl

theorem foldl_applyOp_has_code {E : Type} (ops : List (AppendOp E))
    (b : Error E) : (ops.foldl Error.applyOp b).has_code_ = b.has_code_ := by
  induction ops generalizing b with
  | nil => rfl
  | cons op ops ih => rw [List.foldl_cons, ih, applyOp_has_code]

theorem foldl_appendStr_code {E : Type} (msgs : List String) (b : Error E) :
    (msgs.foldl Error.appendStr b).code_ = b.code_ := by
  induction msgs generalizing b with
  | nil => rfl
  | cons m ms ih => rw [List.foldl_cons, ih]; rfl

theorem str_of_no_code {E : Type} (print : E → String) (b : Error E)
    (h : b.has_code_ = false) : b.str print = b.ss_ := by
  simp [Error.str, h]

theorem errorCode_all_other {E : Type} (c : E) (args : List (Arg E))
    (h : args.all (fun a => ! a.isRE)) :
    ErrorCode c args = c := by
  induction args with
  | nil => rfl
  | cons a args ih =>
    cases a with
    | re r => simp [List.all_cons, Arg.isRE] at h
    | other =>
      simp only [List.all_cons, Arg.isRE, Bool.not_false, Bool.true_and] at h
      exact ih h

/-! ## Claims -/

/-- C1: `Error::str()` returns the code's description alone when a code
is attached and the accumulated message is empty; the accumulated
message followed by `": "` and the code's description when a code is
attached and the message is non-empty; and the raw accumulated message
unchanged when no code is attached. -/
theorem c1_error_str (E : Type) (print : E → String) (b : Error E) :
    (b.has_code_ = true → b.ss_ = "" → b.str print = print b.code_)
    ∧ (b.has_code_ = true → b.ss_ ≠ "" →
        b.str print = b.ss_ ++ ": " ++ print b.code_)
    ∧ (b.has_code_ = false → b.str print = b.ss_) := by
  refine ⟨fun hc he => ?_, fun hc he => ?_, fun hc => ?_⟩
  · simp [Error.str, hc, he, String.isEmpty_iff]
  · simp [Error.str, hc, String.isEmpty_iff, he]
  · simp [Error.str, hc]

/-- C2: appending a `ResultError<E>` to a builder adopts its code when
the builder has none yet, keeps the builder's code otherwise, and
appends the operand's message to the buffer; in particular
`Error() << ResultError{"x", 5}` has code `5` and message `"x"`. -/
theorem c2_append_result_error (E : Type) (b : Error E)
    (r : ResultError E) :
    ((b.has_code_ = false → (b.appendRE r).code_ = r.code)
    ∧ (b.has_code_ = true → (b.appendRE r).code_ = b.code_)
    ∧ (b.appendRE r).ss_ = b.ss_ ++ r.message)
    ∧ ((Error.empty Errno.default).appendRE ⟨"x", ⟨5⟩⟩).code_ = ⟨5⟩
    ∧ ((Error.empty Errno.default).appendRE ⟨"x", ⟨5⟩⟩).ss_ = "x" := by
  refine ⟨⟨fun hc => ?_, fun hc => ?_, ?_⟩, rfl, rfl⟩
  · simp [Error.appendRE, Error.appendStr, hc]
  · simp [Error.appendRE, Error.appendStr, hc]
  · simp only [Error.appendRE]
    split <;> rfl

/-- C3 (counterexample): with two `ResultError` arguments of codes `1`
and `2`, `ErrorCode` returns `2` — the code of the last such argument,
not of the first, whose code is `1`. -/
theorem c3_first_code_cex :
    ErrorCode (⟨0⟩ : Errno) [.re ⟨"a", ⟨1⟩⟩, .re ⟨"b", ⟨2⟩⟩] = (⟨2⟩ : Errno)
    ∧ ErrorCode (⟨0⟩ : Errno) [.re ⟨"a", ⟨1⟩⟩, .re ⟨"b", ⟨2⟩⟩] ≠ (⟨1⟩ : Errno) := by
  exact ⟨rfl, by decide⟩

/-- C3 (amended): `ErrorCode(c, args...)` returns the code of the LAST
`ResultError<E>`-typed argument when at least one is present — each
`ResultError` argument overrides the running default in order — and
returns `c` unchanged when none is present. -/
theorem c3_error_code_last (E : Type) (c : E) (args : List (Arg E)) :
    ErrorCode c args
      = args.foldl
          (fun acc a => match a with | .re r => r.code | .other => acc) c
    ∧ (args.all (fun a => ! a.isRE) → ErrorCode c args = c) := by
  refine ⟨?_, errorCode_all_other c args⟩
  induction args generalizing c with
  | nil => rfl
  | cons a args ih =>
    cases a with
    | re r => exact ih r.code
    | other => exact ih c

/-- C4: converting a builder to a `Result<T,E>` yields a failure whose
message is `str()` and whose code is the builder's `code_` — the
attached code, or (as the last two conjuncts show) `E`'s default value
when the builder was default-constructed and only plain text was
appended. -/
theorem c4_error_to_result (E T : Type) (print : E → String)
    (b : Error E) :
    ((b.toResult T print).isOk = false
    ∧ (b.toResult T print).errorOf = some ⟨b.str print, b.code_⟩)
    ∧ (∀ c : E, (Error.withCode c).code_ = c)
    ∧ (∀ (d : E) (msgs : List String),
        (msgs.foldl Error.appendStr (Error.empty d)).code_ = d) := by
  exact ⟨⟨rfl, rfl⟩, fun _ => rfl, fun d msgs => foldl_appendStr_code msgs _⟩

/-- C5: the `errno` value in effect after `operator<<` returns equals
the value before the call, for every stringification behaviour of the
operand — including one that overwrites `errno` — because the append
saves and restores it; the second conjunct relates the builder produced
to the pure append of the rendered text. -/
theorem c5_errno_preserved (E : Type) (b : Error E)
    (render : Int → String × Int) (errno : Int) :
    (b.appendT render errno).2 = errno
    ∧ (b.appendT render errno).1 = b.appendStr (render errno).1 := by
  exact ⟨rfl, rfl⟩

/-- C6: `ErrnoError()` captures the current `errno` value `n`: the
returned builder's code has `value() == n`, its accumulated message is
empty and its code is attached; at `n = 2` the code converts to the
integer `2` and `print()` is the platform description (`strerror`) of
code 2. -/
theorem c6_errno_error (n : Int) (strerror : Int → String) :
    ((ErrnoError n).code_.value = n
    ∧ (ErrnoError n).ss_ = ""
    ∧ (ErrnoError n).has_code_ = true)
    ∧ ((ErrnoError 2).code_.toInt = 2
    ∧ (ErrnoError 2).code_.print strerror = strerror 2) := by
  exact ⟨⟨rfl, rfl, rfl⟩, rfl, rfl⟩

/-- C7 (counterexample): when the argument list contains a captured
`ResultError` (here with code 5), the factory's builder and the plain
default builder with the same rendered text convert to DIFFERENT
`ResultError`s — the factory inherits code 5, the plain builder keeps
code 0 — even though their `str()` agree. -/
theorem c7_errorf_equiv_cex :
    (ErrorfImpl [.re ⟨"m", ⟨5⟩⟩] "f").toResult Unit (fun _ => "d")
      ≠ ((Error.empty Errno.default).appendStr "f").toResult Unit (fun _ => "d")
    ∧ (ErrorfImpl [.re ⟨"m", ⟨5⟩⟩] "f").str (fun _ => "d")
      = ((Error.empty Errno.default).appendStr "f").str (fun _ => "d") := by
  exact ⟨by decide, rfl⟩

/-- C7 (amended): the `Error` produced by `ErrorfImpl` always has the
same `str()` as a plain default builder with the rendered text
appended; and it yields the same `ResultError` on conversion whenever
no `ResultError<Errno>`-typed argument appears in the argument list
(when one does, the factory's conversion carries that argument's code
instead of the default). In particular
`Errorf("failed to read {}", "path")` converts to a failing result
whose message is `"failed to read path"`. -/
theorem c7_errorf_equiv (args : List (Arg Errno)) (formatted : String)
    (print : Errno → String) (T : Type) :
    ((ErrorfImpl args formatted).str print
      = ((Error.empty Errno.default).appendStr formatted).str print
    ∧ (args.all (fun a => ! a.isRE) →
        (ErrorfImpl args formatted).toResult T print
          = ((Error.empty Errno.default).appendStr formatted).toResult T print))
    ∧ (((ErrorfImpl [.other] "failed to read path").toResult T print).isOk = false
    ∧ ((ErrorfImpl [.other] "failed to read path").toResult T print).errorOf.map
        ResultError.message = some "failed to read path") := by
  have hstr : ∀ (b : Error Errno), b.has_code_ = false →
      b.str print = b.ss_ := str_of_no_code print
  refine ⟨⟨?_, fun h => ?_⟩, rfl, ?_⟩
  · rw [hstr _ rfl, hstr _ rfl]
    rfl
  · simp only [Error.toResult, ErrorfImpl, Error.mkPrivate,
      errorCode_all_other Errno.default args h]
    rfl
  · have : (ErrorfImpl [.other] "failed to read path").str print
        = "failed to read path" := hstr _ rfl
    simp [Error.toResult, Result.errorOf, this, ResultError.message]

/-- C8: `OkOrFail<Result<T,E>>::Fail` on a failing result yields an
object that converts to a bare code type as the failure's code (through
the given conversion), and converts to `Result<U,E>` as a failure
carrying a `ResultError` with the same message and the same code. -/
theorem c8_ok_or_fail (T U E S : Type) (conv : E → S) (v : Result T E)
    (r : ResultError E) (h : v.errorOf = some r) :
    v.isOk = false
    ∧ (OkOrFail.Fail v).asCode conv = some (conv r.code)
    ∧ (OkOrFail.Fail v).asResult U
        = some (Result.err ⟨r.message, r.code⟩) := by
  cases v with
  | ok _ => simp [Result.errorOf] at h
  | err e =>
    simp only [Result.errorOf, Option.some.injEq] at h
    subst h
    exact ⟨rfl, rfl, rfl⟩

/-- C8 witness: at the concrete failing result
`Result.err ⟨"m", 3⟩ : Result Unit Errno`, converting through
`Errno.value` gives `3` and re-wrapping gives the same failure. -/
theorem c8_ok_or_fail_witness :
    (Result.err ⟨"m", ⟨3⟩⟩ : Result Unit Errno).isOk = false
    ∧ (OkOrFail.Fail (Result.err ⟨"m", ⟨3⟩⟩ : Result Unit Errno)).asCode
        Errno.value = some 3
    ∧ (OkOrFail.Fail (Result.err ⟨"m", ⟨3⟩⟩ : Result Unit Errno)).asResult
        Bool = some (Result.err ⟨"m", ⟨3⟩⟩) :=
  c8_ok_or_fail Unit Bool Errno Int Errno.value
    (Result.err ⟨"m", ⟨3⟩⟩) ⟨"m", ⟨3⟩⟩ rfl

/-- C9: `has_code_` is fixed at construction — no sequence of appends
changes it — so a default-constructed builder that adopts a code from
an appended `ResultError` still renders `str()` as the bare buffer with
no code suffix (here `"x"`), while the `ResultError` produced by
converting it to a `Result` does carry the adopted code. -/
theorem c9_has_code_fixed (E : Type) (print : E → String) (d c : E)
    (b : Error E) (ops : List (AppendOp E)) (m : String) :
    ((ops.foldl Error.applyOp b).has_code_ = b.has_code_
    ∧ (b.has_code_ = false →
        (ops.foldl Error.applyOp b).str print
          = (ops.foldl Error.applyOp b).ss_))
    ∧ (((Error.empty d).appendRE ⟨m, c⟩).str print = m
    ∧ (((Error.empty d).appendRE ⟨m, c⟩).toResult Unit print).errorOf.map
        ResultError.code = some c) := by
  refine ⟨⟨foldl_applyOp_has_code ops b, fun h => ?_⟩, ?_, ?_⟩
  · exact str_of_no_code print _ ((foldl_applyOp_has_code ops b).trans h)
  · have h9 : ((Error.empty d).appendRE ⟨m, c⟩).has_code_ = false := rfl
    rw [str_of_no_code print _ h9]
    simp [Error.appendRE, Error.appendStr, Error.empty, ResultError.message]
  · rfl

/-! ## Lemmas about Trim -/

theorem dropLeading_eq (l : List Char) :
    dropLeading l = l.dropWhile isspace := by
  induction l with
  | nil => rfl
  | cons c cs ih =>
    rw [dropLeading, List.dropWhile_cons, ih]

theorem dropWhile_append_nonspace (X : List Char) (c : Char)
    (hc : isspace c = false) :
    (X ++ [c]).dropWhile isspace = X.dropWhile isspace ++ [c] := by
  rw [List.dropWhile_append]
  cases h : (X.dropWhile isspace).isEmpty with
  | true =>
    rw [List.isEmpty_iff.mp h]
    simp [List.dropWhile_cons, hc]
  | false => simp

theorem dropTrailing_eq (l : List Char) :
    dropTrailing l = (l.reverse.dropWhile isspace).reverse := by
  induction l with
  | nil => rfl
  | cons c cs ih =>
    cases h : dropTrailing cs with
    | nil =>
      have h0 : List.dropWhile isspace cs.reverse = [] :=
        List.reverse_eq_nil_iff.mp (ih.symm.trans h)
      simp only [dropTrailing, h, List.reverse_cons, List.dropWhile_append,
        h0, List.isEmpty_nil, if_true, List.dropWhile_cons,
        List.dropWhile_nil]
      cases hc : isspace c <;> simp
    | cons x xs =>
      have h1 : (List.dropWhile isspace cs.reverse).reverse = x :: xs :=
        ih.symm.trans h
      have h0 : List.dropWhile isspace cs.reverse = (x :: xs).reverse := by
        rw [← h1, List.reverse_reverse]
      simp only [dropTrailing, h, List.reverse_cons, List.dropWhile_append,
        h0]
      simp [List.reverse_append]

theorem trimChars_eq (l : List Char) :
    trimChars l
      = ((l.dropWhile isspace).reverse.dropWhile isspace).reverse := by
  rw [trimChars, dropLeading_eq, dropTrailing_eq]

theorem no_lead_head (A : List Char) (hA : A.dropWhile isspace = A) :
    A = [] ∨ ∃ a as, A = a :: as ∧ isspace a = false := by
  cases A with
  | nil => exact Or.inl rfl
  | cons a as =>
    refine Or.inr ⟨a, as, rfl, ?_⟩
    by_contra hc
    rw [Bool.not_eq_false] at hc
    rw [List.dropWhile_cons, if_pos hc] at hA
    have hle : (as.dropWhile isspace).length ≤ as.length :=
      (List.dropWhile_sublist isspace).length_le
    rw [hA] at hle
    simp at hle

theorem trim_no_lead (s : List Char) :
    (trimChars s).dropWhile isspace = trimChars s := by
  rw [trimChars_eq]
  rcases no_lead_head (s.dropWhile isspace)
      (List.dropWhile_idempotent isspace s) with h | ⟨a, as, h, ha⟩
  · simp [h]
  · rw [h, List.reverse_cons, dropWhile_append_nonspace _ _ ha,
      List.reverse_append]
    simp [List.dropWhile_cons, ha]

theorem trimChars_idem (s : List Char) :
    trimChars (trimChars s) = trimChars s := by
  have h2 : (trimChars s).reverse.dropWhile isspace
      = (trimChars s).reverse := by
    rw [trimChars_eq, List.reverse_reverse]
    exact List.dropWhile_idempotent isspace _
  rw [trimChars_eq (trimChars s), trim_no_lead s, h2,
    List.reverse_reverse]

/-- C10: `Trim(s)` is `s` with all its leading whitespace and all its
trailing whitespace removed (drop the longest whitespace run from the
front, then the longest whitespace run from the back, leaving the
interior unchanged), and `Trim` is idempotent. -/
theorem c10_trim (s : String) :
    (Trim s).data
      = ((s.data.dropWhile isspace).reverse.dropWhile isspace).reverse
    ∧ Trim (Trim s) = Trim s := by
  refine ⟨trimChars_eq s.data, ?_⟩
  show (⟨trimChars (trimChars s.data)⟩ : String) = ⟨trimChars s.data⟩
  rw [trimChars_idem]

end LibBase
